import Mathlib

/-!
Verification development for the `nope-universal-cache` repository: a shallow
embedding of the tiered cache coordinator (`CacheManager`), the independent
store wrapper (`IndependentStoreCacheWrapper` + `MemoryStore`), the reactive
value primitive (`Ref` / `computedRef`) and the TTL resolution helper
(`msForTtl`), together with theorems settling the specification's claims
about them.

Conventions of the embedding:
- JavaScript numbers that can only be finite integers in the modelled code are
  `Int`; where the code can produce `NaN` (arithmetic on `undefined`) the type
  `JNum` is used, with `undefined` entering arithmetic as `JNum.nan`.
- `undefined` at rest is `Option`.
- A thrown configuration error is `Except.error`.
- Asynchronous tier calls are recorded as explicit `Op` values; the set of
  operations a `get` awaits before returning is modelled by the snapshot the
  `Promise.all(promises)` call takes of the `promises` array.
-/

namespace NopeCache

/-- JavaScript number that is either a finite integer or `NaN`.  Arithmetic
with `undefined` (e.g. `Date.now() + undefined`) produces `NaN`, and every
arithmetic operation and `Math.min` propagate `NaN`. -/
inductive JNum where
  | nan : JNum
  | num : Int → JNum
deriving DecidableEq, Repr

/-- Coercion of a possibly-`undefined` number into arithmetic: `undefined`
becomes `NaN` (as in `Date.now() + longestTtl` when `longestTtl` is
`undefined`). -/
def JNum.ofOpt : Option Int → JNum
  | none => JNum.nan
  | some n => JNum.num n

/-- JavaScript `+` on numbers (NaN-propagating). -/
def JNum.add : JNum → JNum → JNum
  | JNum.num a, JNum.num b => JNum.num (a + b)
  | _, _ => JNum.nan

/-- JavaScript `-` on numbers (NaN-propagating). -/
def JNum.sub : JNum → JNum → JNum
  | JNum.num a, JNum.num b => JNum.num (a - b)
  | _, _ => JNum.nan

/-- `Math.min` on two numbers: `NaN` if either argument is `NaN`. -/
def JNum.min : JNum → JNum → JNum
  | JNum.num a, JNum.num b => JNum.num (Min.min a b)
  | _, _ => JNum.nan

/-- JavaScript array indexing `values[i]` on an integer index: out-of-range or
negative indices yield `undefined`. -/
def jsIndex (values : List Int) (i : Int) : Option Int :=
  if i < 0 then none else values.get? i.toNat

/-- JavaScript `>` where the right operand may be `undefined`
(`cur > values[acc]` is `false` whenever `values[acc]` is `undefined`). -/
def jsGtOpt (cur : Int) (r : Option Int) : Bool :=
  match r with
  | none => false
  | some v => cur > v

/-- A tier's capability flags, fixed at construction
(`CacheInterface` in `part_005`). -/
structure Tier where
  isShared : Bool
  rejectionSafe : Bool
deriving DecidableEq, Repr

/-- An asynchronous tier operation issued by the coordinator's `get`:
a backfill `set`, a reconciliation `updateTtl`, or a reconciliation `del`.
The index is the index used to select the cache from the array the loop
iterates over (`this.caches` for backfills, `this.caches.slice(hitIndex)`
for reconciliation). -/
inductive Op where
  | setOp : Nat → Op
  | updateTtl : Nat → JNum → Op
  | del : Nat → Op
deriving DecidableEq, Repr

/-- The callback of
`values.reduce((acc, cur, index) => acc === undefined ? 0 : cur > values[acc] ? index : acc)`
in `CacheManager.get` (part_005).  `acc` is never `undefined` here: with no
initial value the accumulator starts as `values[0]`, a number, and the
callback only ever returns `0`, `index` or `acc`.  Note the accumulator is
used as an *index* into `values` even though it starts as a *value*. -/
def reduceCb (values : List Int) (acc cur index : Int) : Int :=
  if jsGtOpt cur (jsIndex values acc) then index else acc

/-- `values.reduce(cb)` with no initial value: the accumulator starts as
`values[0]` and the callback runs from index `1`.  The empty-array case is
unreachable in `get` (guarded by `values.length === 0`). -/
def reduceMaxIndex (values : List Int) : Int :=
  match values with
  | [] => 0
  | v :: rest => go values v rest 1
where
  go (values : List Int) (acc : Int) (l : List Int) (idx : Int) : Int :=
    match l with
    | [] => acc
    | cur :: rest => go values (reduceCb values acc cur idx) rest (idx + 1)

/-- The `updateTtl` argument
`Math.min(Date.now() + longestTtl, values[hi]) - Date.now()` computed during
reconciliation; `longestTtl` may be `undefined` and `values[hi]` may be out of
range, in which case `NaN` flows through. -/
def reconTtlArg (values : List Int) (longestTtl : Option Int) (now : Int) (hi : Nat) : JNum :=
  JNum.sub
    (JNum.min (JNum.add (JNum.num now) (JNum.ofOpt longestTtl))
      (JNum.ofOpt (jsIndex values (hi : Int))))
    (JNum.num now)

/-- First reconciliation loop of `CacheManager.get` (part_005, "Hit and
below"): `let hi = hitIndex; for (; hi < caches.length; hi++) { if (hi ===
maxIndex) break; ... push updateTtl(...) }`.  Returns the pushed operations
and the value of `hi` at loop exit.  `fuel` bounds the iteration count; the
caller passes the array length, which suffices since `hi` only increments. -/
def reconLoop1 (values : List Int) (cachesLen : Nat) (maxIndex : Int)
    (longestTtl : Option Int) (now : Int) : Nat → Nat → List Op × Nat
  | hi, 0 => ([], hi)
  | hi, fuel + 1 =>
    if hi < cachesLen then
      if (hi : Int) = maxIndex then ([], hi)
      else
        let rest := reconLoop1 values cachesLen maxIndex longestTtl now (hi + 1) fuel
        (Op.updateTtl hi (reconTtlArg values longestTtl now hi) :: rest.1, rest.2)
    else ([], hi)

/-- Second reconciliation loop of `CacheManager.get` (part_005, "Past no
operation cache"): `hi++; for (; hi < caches.length; hi++) { if (c.isShared)
push del else push updateTtl }`.  Note: the branch issues `del` exactly when
the cache `isShared`. -/
def reconLoop2 (values : List Int) (caches : List Tier)
    (longestTtl : Option Int) (now : Int) : Nat → Nat → List Op
  | _, 0 => []
  | hi, fuel + 1 =>
    match caches.get? hi with
    | none => []
    | some c =>
      (if c.isShared then Op.del hi
       else Op.updateTtl hi (reconTtlArg values longestTtl now hi)) ::
        reconLoop2 values caches longestTtl now (hi + 1) fuel

/-- The TTL-reconciliation phase of `CacheManager.get` (part_005, the callback
of `Promise.all(ttls.slice(hitIndex)).then(...)`), as a function of the tier
list, the TTLs each tier reported, the hit index and the current time.
`values` and `caches` are the slices from `hitIndex`; operation indices are
indices into those slices.  Inside `get` as written, `hitIndex` always equals
the number of tiers (the scan loop has no `break`), so the slices are empty
and the phase returns no operations; the function is kept parametric in
`hitIndex` so the phase's own branch structure can be examined. -/
def reconcileOps (tiers : List Tier) (ttls : List Int) (hitIndex : Nat) (now : Int) : List Op :=
  let values := ttls.drop hitIndex
  let caches := tiers.drop hitIndex
  if values.length = 0 then []
  else
    let maxIndex := reduceMaxIndex values
    let longestTtl := jsIndex values maxIndex
    let r1 := reconLoop1 values caches.length maxIndex longestTtl now hitIndex caches.length
    r1.1 ++ reconLoop2 values caches longestTtl now (r1.2 + 1) caches.length

/-- Aggregate `rejectionSafe` of `CacheManager` (part_005):
`this.caches.every((cache) => cache.rejectionSafe)`. -/
def aggRejectionSafe (caches : List Tier) : Bool :=
  caches.all (fun cache => cache.rejectionSafe)

/-- Aggregate `isShared` of `CacheManager` (part_005):
`this.caches.some((cache) => cache.isShared)`. -/
def aggIsShared (caches : List Tier) : Bool :=
  caches.any (fun cache => cache.isShared)

/-- One tier as `CacheManager.get` observes it: its flags, the value its
`get(key)` resolves to, and the TTL its `getTtl(key)` resolves to. -/
structure TierState (T : Type) where
  tier : Tier
  stored : Option T
  ttl : Int

/-- Result of `CacheManager.get` (part_005): the value resolved to the
caller, the operations issued into the `promises` array (backfill `set`s and
reconciliation operations), and the operations whose completion is awaited
before `get` returns.  `await Promise.all(promises)` snapshots the array when
called: it then contains the backfill promises and the reconciliation wrapper
promise, but not the `updateTtl`/`del` promises the wrapper's callback pushes
later, so `awaitedOps` holds only the backfill operations (and is empty when
the aggregate `rejectionSafe` skips the `await` altogether). -/
structure GetResult (T : Type) where
  value : Option T
  issuedOps : List Op
  awaitedOps : List Op

/-- The tier-scan loop of `CacheManager.get` (part_005):
`for (; i < this.caches.length; i++) { v = await this.caches[i].get(key);
if (v === undefined) continue; }`.  The body has no `break`: `v` is simply
reassigned on every iteration, so after the loop `v` is the last tier's
result (or `undefined` when there are no tiers) and `i` equals the number of
tiers. -/
def scanLoop {T : Type} (stored : List (Option T)) : Option T :=
  stored.foldl (fun _ cur => cur) none

/-- `CacheManager.get` (part_005) over the observed tier states: scan all
tiers, return `undefined` if the final `v` is `undefined`; otherwise
`hitIndex = i` (which the missing `break` forces to the tier count), backfill
every tier below `hitIndex`, and run the reconciliation phase over the slices
from `hitIndex`. -/
def CMget {T : Type} (cs : List (TierState T)) (now : Int) : GetResult T :=
  let v := scanLoop (cs.map (fun c => c.stored))
  match v with
  | none => { value := none, issuedOps := [], awaitedOps := [] }
  | some hitValue =>
    let hitIndex := cs.length
    let backfillOps := (List.range hitIndex).map Op.setOp
    let recon := reconcileOps (cs.map (fun c => c.tier)) (cs.map (fun c => c.ttl)) hitIndex now
    { value := some hitValue,
      issuedOps := backfillOps ++ recon,
      awaitedOps :=
        if aggRejectionSafe (cs.map (fun c => c.tier)) then [] else backfillOps }

/-- Inside `get` as written, the reconciliation phase receives empty slices
(`hitIndex` equals the tier count) and therefore issues no operations. -/
theorem reconcileOps_full_slice (tiers : List Tier) (ttls : List Int) (now : Int) :
    reconcileOps tiers ttls ttls.length now = [] := by
  simp [reconcileOps]

/-- C1 (code bug evaluation): the TTL-reconciliation phase, run with hit index
0, reported TTLs `[0, 5, 3]` and a third tier whose `isShared` flag is true,
issues `del` against that shared tier and issues `updateTtl` (not `del`)
against the private tier whose TTL `0` is strictly shorter than the longest
TTL `5` — the exact opposite of the claimed policy that shared tiers are only
ever extended and short-TTL private tiers are deleted. -/
theorem c1_reconciliation_dels_shared_tier :
    (([⟨false, true⟩, ⟨false, true⟩, ⟨true, true⟩] : List Tier).get? 2).map Tier.isShared
        = some true ∧
      reconcileOps [⟨false, true⟩, ⟨false, true⟩, ⟨true, true⟩] [0, 5, 3] 0 1000
        = [Op.updateTtl 0 (JNum.num (-1000)), Op.del 2] := by
  exact ⟨rfl, by decide⟩

/-- C2 (code bug evaluation): the scan loop of `CacheManager.get` (part_005)
does not stop at the first tier holding a value.  With two tiers where tier 0
holds `1` and tier 1 misses, `get` resolves to `undefined` instead of `1`;
with tier 0 holding `1` and tier 1 holding `2`, `get` resolves to the deeper
tier's `2` instead of the first hit `1`. -/
theorem c2_scan_does_not_stop_at_first_hit :
    (CMget [⟨⟨false, true⟩, some 1, 5⟩, ⟨⟨false, true⟩, none, 5⟩] 0).value = none ∧
      (CMget [⟨⟨false, true⟩, some 1, 5⟩, ⟨⟨false, true⟩, some 2, 5⟩] 0).value = some 2 := by
  exact ⟨rfl, rfl⟩

/-- C4: `CacheManager.get` awaits the completion of every operation it issued
exactly when the aggregate `rejectionSafe` is false, and returns without
awaiting any of them when it is true.  (As the scan loop forces `hitIndex` to
the tier count, the reconciliation phase issues no operations, so the
operations issued are the backfill writes, all of which sit in the array
snapshot taken by `await Promise.all(promises)`.) -/
theorem c4_get_awaits_iff_not_rejection_safe (T : Type) (cs : List (TierState T)) (now : Int) :
    (CMget cs now).awaitedOps =
      if aggRejectionSafe (cs.map (fun c => c.tier)) then []
      else (CMget cs now).issuedOps := by
  have hrec := reconcileOps_full_slice (cs.map fun c => c.tier) (cs.map fun c => c.ttl) now
  simp only [List.length_map] at hrec
  unfold CMget
  cases scanLoop (cs.map fun c => c.stored) with
  | none => simp
  | some v => simp [hrec]

/-- C7: the coordinator's aggregate `rejectionSafe` is true exactly when every
tier's `rejectionSafe` flag is true, and the aggregate `isShared` is true
exactly when some tier's `isShared` flag is true. -/
theorem c7_aggregate_capability_flags (caches : List Tier) :
    (aggRejectionSafe caches = true ↔ ∀ c ∈ caches, c.rejectionSafe = true) ∧
      (aggIsShared caches = true ↔ ∃ c ∈ caches, c.isShared = true) := by
  constructor
  · simp [aggRejectionSafe, List.all_eq_true]
  · simp [aggIsShared, List.any_eq_true]

/-- Settlement result of a JavaScript promise: resolved with a value or
rejected with a reason. -/
inductive PResult (T : Type) where
  | resolved : T → PResult T
  | rejected : String → PResult T
deriving DecidableEq, Repr

/-- `p.then(f)`: a rejected promise skips the fulfillment handler and keeps
its rejection reason; a resolved promise continues with `f`. -/
def jsThen {α β : Type} (p : PResult α) (f : α → PResult β) : PResult β :=
  match p with
  | PResult.resolved v => f v
  | PResult.rejected e => PResult.rejected e

/-- The `finally` handler of `CacheManager.set` in part_005 (and of
`CacheManagerPromise.set` in part_003): `delete this.promiseCache[key]` —
the entry for the key is removed unconditionally, whatever computation the
map currently holds.  Computations are identified by `Nat` ids; the map state
for one key is `Option Nat`. -/
def settleCleanup005 (_mapState : Option Nat) (_settled : Nat) : Option Nat :=
  none

/-- The `finally` handler of `CacheManager.set` in part_004:
`if (value === this.promiseCache[key]) { delete this.promiseCache[key]; }` —
the entry is removed only when the map still holds the settling computation
itself. -/
def settleCleanup004 (mapState : Option Nat) (settled : Nat) : Option Nat :=
  if mapState = some settled then none else mapState

/-- Events touching the pending-computation map entry of one key: a `set`
call installing a pending computation (`this.promiseCache[key] = value`), or
the settlement of a previously supplied computation running a `finally`
cleanup. -/
inductive PEvent where
  | install : Nat → PEvent
  | settle : Nat → PEvent
deriving DecidableEq, Repr

/-- Replay a sequence of install/settle events against one key's map entry,
using the given `finally` cleanup policy. -/
def runPending (cleanup : Option Nat → Nat → Option Nat) :
    Option Nat → List PEvent → Option Nat
  | m, [] => m
  | m, PEvent.install i :: rest => runPending cleanup (some i) rest
  | m, PEvent.settle i :: rest => runPending cleanup (cleanup m i) rest

/-- The pending branch of `CacheManager.set` (part_005):
`this.promiseCache[key] = value; return value.then((v) => this.set(key, v))
.finally(() => { delete this.promiseCache[key]; })`.  Returns the settlement
of the promise `set` hands back to its caller together with the map entry
after the computation settles; `innerSet` is the recursive
`this.set(key, resolvedValue)` call.  The `finally` callback returns
`undefined`, so it passes the `then` chain's settlement through unchanged. -/
def setPending005 {T : Type} (compId : Nat) (comp : PResult T)
    (innerSet : T → PResult T) : PResult T × Option Nat :=
  (jsThen comp innerSet, settleCleanup005 (some compId) compId)

/-- C3 (counterexample): with the part_005 coordinator, install computation
`0`, install computation `1` for the same key (a later `set` superseding the
first), then let computation `0` settle: its `finally` cleanup clears the
map unconditionally, so the entry installed by the later `set` call — which
the claim says must survive — is gone. -/
theorem c3_cleanup_clears_later_entry :
    runPending settleCleanup005 none
        [PEvent.install 0, PEvent.install 1, PEvent.settle 0] ≠ some 1 := by
  decide

/-- C3 (amended): the part_005 (and part_003) coordinator removes the
pending-computation map entry unconditionally when a computation settles, so
after two overlapping pending `set` calls the map is empty as soon as the
first computation settles; only the part_004 draft guards the removal, and
there the map keeps the most recent caller's computation. -/
theorem c3_guarded_cleanup_only_in_part004 (a b : Nat) (h : a ≠ b) :
    runPending settleCleanup005 none
        [PEvent.install a, PEvent.install b, PEvent.settle a] = none ∧
      runPending settleCleanup004 none
        [PEvent.install a, PEvent.install b, PEvent.settle a] = some b := by
  refine ⟨rfl, ?_⟩
  simp [runPending, settleCleanup004, Ne.symm h]

/-- C3 witness. -/
theorem c3_guarded_cleanup_only_in_part004_witness :
    runPending settleCleanup005 none
        [PEvent.install 0, PEvent.install 1, PEvent.settle 0] = none ∧
      runPending settleCleanup004 none
        [PEvent.install 0, PEvent.install 1, PEvent.settle 0] = some 1 :=
  c3_guarded_cleanup_only_in_part004 0 1 (by decide)

/-- C5: a pending computation that rejects makes the promise returned by that
`set` call reject with the same reason, for every inner `set` continuation —
the rejection is never converted into a resolved result. -/
theorem c5_pending_rejection_propagates (T : Type) (compId : Nat) (e : String)
    (innerSet : T → PResult T) :
    (setPending005 compId (PResult.rejected e) innerSet).1 = PResult.rejected e ∧
      ∀ v : T, (setPending005 compId (PResult.rejected e) innerSet).1 ≠ PResult.resolved v := by
  exact ⟨rfl, fun v h => by simp [setPending005, jsThen] at h⟩

/-- Numeric value of a list of decimal digit characters. -/
def digitsToNat (ds : List Char) : Nat :=
  ds.foldl (fun a c => a * 10 + (c.toNat - 48)) 0

/-- Milliseconds-per-unit table of the external `ms` package (v2): an
unrecognized unit makes the whole parse fail, and a missing unit means
milliseconds. -/
def unitFactor (u : String) : Option Int :=
  if u = "" then some 1
  else if u ∈ ["ms", "msec", "msecs", "millisecond", "milliseconds"] then some 1
  else if u ∈ ["s", "sec", "secs", "second", "seconds"] then some 1000
  else if u ∈ ["m", "min", "mins", "minute", "minutes"] then some 60000
  else if u ∈ ["h", "hr", "hrs", "hour", "hours"] then some 3600000
  else if u ∈ ["d", "day", "days"] then some 86400000
  else if u ∈ ["w", "week", "weeks"] then some 604800000
  else if u ∈ ["y", "yr", "yrs", "year", "years"] then some 31557600000
  else none

/-- ASCII lowercasing of one character (the `ms` package matches duration
strings case-insensitively). -/
def lowerChar (c : Char) : Char :=
  if 65 ≤ c.toNat ∧ c.toNat ≤ 90 then Char.ofNat (c.toNat + 32) else c

/-- Model of the external `ms` dependency (vercel/ms v2), the duration-string
parser `msForTtl` delegates to: case-insensitively parses an optional sign,
a digit run and an optional unit separated by spaces, and returns `undefined`
(here `none`) for any string it cannot parse.  (The real package also accepts
decimal fractions; nothing in this development depends on them.) -/
def msFunction (s : String) : Option Int :=
  let cs := s.data.map lowerChar
  let signAndRest : Int × List Char :=
    match cs with
    | '-' :: r => (-1, r)
    | _ => (1, cs)
  let digits := signAndRest.2.takeWhile Char.isDigit
  let unitChars := (signAndRest.2.dropWhile Char.isDigit).dropWhile (fun c => c = ' ')
  if digits = [] then none
  else
    match unitFactor (String.mk unitChars) with
    | none => none
    | some f => some (signAndRest.1 * (digitsToNat digits : Int) * f)

/-- The `msForTtl` argument `number | string | undefined`. -/
inductive TtlValue where
  | num : Int → TtlValue
  | str : String → TtlValue
  | undef : TtlValue

/-- The configuration error thrown by `msForTtl`. -/
def ttlRangeError : String :=
  "ttl must be less than 2147483647 (or aproximately 24.8 days)"

/-- `msForTtl` (src/util.ts): `undefined` passes through; a string is parsed
by the `ms` package (an unparseable string becomes `undefined`, and
`undefined > 2147483647` is false, so it passes the range check); a resolved
number above `2147483647` throws the configuration error. -/
def msForTtl (v : TtlValue) : Except String (Option Int) :=
  match v with
  | TtlValue.undef => Except.ok none
  | TtlValue.num n =>
    if n > 2147483647 then Except.error ttlRangeError else Except.ok (some n)
  | TtlValue.str s =>
    match msFunction s with
    | none => Except.ok none
    | some n =>
      if n > 2147483647 then Except.error ttlRangeError else Except.ok (some n)

/-- The duration a TTL argument resolves to: the number itself, the parse of
a string, nothing for `undefined`. -/
def resolvedTtl (v : TtlValue) : Option Int :=
  match v with
  | TtlValue.undef => none
  | TtlValue.num n => some n
  | TtlValue.str s => msFunction s

/-- C6 (counterexample): `"zzz"` is an invalid duration string (the `ms`
parse yields `undefined`), yet `msForTtl` accepts it without raising the
configuration error, returning `undefined` — the claim requires a
configuration error for every invalid duration string. -/
theorem c6_invalid_string_accepted :
    msFunction "zzz" = none ∧ msForTtl (TtlValue.str "zzz") = Except.ok none := by
  have h1 : msFunction "zzz" = none := by decide
  exact ⟨h1, by simp [msForTtl, h1]⟩

/-- C6 (amended): `msForTtl` raises the configuration error if and only if
the supplied TTL resolves to a duration exceeding 2147483647 milliseconds;
an invalid duration string resolves to `undefined` and is accepted without
error, and any numeric TTL or valid duration string at or below the bound is
accepted. -/
theorem c6_error_iff_duration_exceeds_max (v : TtlValue) :
    (∃ e, msForTtl v = Except.error e) ↔
      ∃ n, resolvedTtl v = some n ∧ n > 2147483647 := by
  cases v with
  | undef => simp [msForTtl, resolvedTtl]
  | num n =>
    by_cases h : n > 2147483647 <;> simp [msForTtl, resolvedTtl, h]
  | str s =>
    cases hm : msFunction s with
    | none => simp [msForTtl, resolvedTtl, hm]
    | some n =>
      by_cases h : n > 2147483647 <;> simp [msForTtl, resolvedTtl, hm, h]

/-- The plain reactive value of src/reactive.ts: a current value and the
registered observers (identified by `Nat`, in registration order). -/
structure Ref (α : Type) where
  value : α
  listeners : List Nat
deriving DecidableEq, Repr

/-- The `value` setter of `Ref`: `if (oldValue === newValue) return;` — on an
identical value nothing happens; otherwise the value is replaced and every
listener is called with `(oldValue, newValue)`, in order.  Returns the
updated `Ref` and the fired notifications `(listener, oldValue, newValue)`. -/
def Ref.setValue {α : Type} [DecidableEq α] (r : Ref α) (newValue : α) :
    Ref α × List (Nat × α × α) :=
  if r.value = newValue then (r, [])
  else
    ({ r with value := newValue },
      r.listeners.map (fun listener => (listener, r.value, newValue)))

/-- `Ref.hook`: registers a further listener. -/
def Ref.hook {α : Type} (r : Ref α) (listener : Nat) : Ref α :=
  { r with listeners := r.listeners ++ [listener] }

/-- The observer graph `computedRef(calculate, dependencies)` builds: each
dependency is a `Ref` whose single hook recomputes the derived `Ref`
(`computed.value = calculate()`), and the derived `Ref` carries its own
observers.  `compute` consumes the dependencies' current values. -/
structure CompSystem (α β : Type) where
  deps : List (Ref α)
  compute : List α → β
  computed : Ref β

/-- Writing `v` to dependency `i` of a derived value: the dependency's own
setter suppresses the write if the value is identical; otherwise the
dependency updates and its hook runs `computed.value = calculate()`, whose
setter in turn fires the derived value's observers only when the recomputed
value differs.  Returns the new system and the notifications fired by the
derived value. -/
def CompSystem.setDep {α β : Type} [DecidableEq α] [DecidableEq β]
    (s : CompSystem α β) (i : Nat) (v : α) :
    CompSystem α β × List (Nat × β × β) :=
  match s.deps.get? i with
  | none => (s, [])
  | some d =>
    if d.value = v then (s, [])
    else
      let deps2 := s.deps.set i { d with value := v }
      let r := Ref.setValue s.computed (s.compute (deps2.map Ref.value))
      ({ s with deps := deps2, computed := r.1 }, r.2)

/-- C8: setting a `Ref` to its current value fires no observers and leaves it
unchanged; setting it to a different value updates it and notifies every
registered observer with the old and new value; writing a changed value to a
dependency of a derived value recomputes the derived value from the updated
dependencies (an unchanged write does nothing), and the derived value fires
its own observers exactly when the recomputed value differs from its
previous value. -/
theorem c8_reactive_value_semantics {α β : Type} [DecidableEq α] [DecidableEq β]
    (r : Ref α) (v : α) (hv : v ≠ r.value)
    (s : CompSystem α β) (i : Nat) (d : Ref α) (hd : s.deps.get? i = some d)
    (w : α) (hw : w ≠ d.value) :
    Ref.setValue r r.value = (r, []) ∧
      Ref.setValue r v =
        ({ r with value := v }, r.listeners.map (fun l => (l, r.value, v))) ∧
      CompSystem.setDep s i d.value = (s, []) ∧
      (CompSystem.setDep s i w).1.computed.value
        = s.compute ((s.deps.set i { d with value := w }).map Ref.value) ∧
      (CompSystem.setDep s i w).2
        = (if s.computed.value
              = s.compute ((s.deps.set i { d with value := w }).map Ref.value)
           then []
           else s.computed.listeners.map
             (fun l => (l, s.computed.value,
               s.compute ((s.deps.set i { d with value := w }).map Ref.value)))) := by
  have h1 : Ref.setValue r r.value = (r, []) := by simp [Ref.setValue]
  have h2 : Ref.setValue r v =
      ({ r with value := v }, r.listeners.map (fun l => (l, r.value, v))) := by
    simp [Ref.setValue, Ne.symm hv]
  have h3 : CompSystem.setDep s i d.value = (s, []) := by
    unfold CompSystem.setDep
    rw [hd]
    simp
  have hne : ¬ d.value = w := fun hc => hw hc.symm
  constructor
  · exact h1
  constructor
  · exact h2
  constructor
  · exact h3
  · unfold CompSystem.setDep
    rw [hd]
    simp only [hne, if_false, Ref.setValue, List.map_set]
    by_cases hc : s.computed.value = s.compute ((s.deps.map Ref.value).set i w)
    · simp [hc]
    · simp [hc]

/-- A concrete observer graph: two dependencies valued `1` and `2` whose hook
is listener `0`, a derived value caching `2` with observer `9`, recomputing
the maximum of the dependencies. -/
def sampleSystem : CompSystem Int Int :=
  { deps := [⟨1, [0]⟩, ⟨2, [0]⟩], compute := fun l => l.foldr max 0,
    computed := ⟨2, [9]⟩ }

/-- C8 witness. -/
theorem c8_reactive_value_semantics_witness :
    (1 : Int) ≠ (⟨0, [7]⟩ : Ref Int).value ∧
      sampleSystem.deps.get? 0 = some ⟨1, [0]⟩ ∧
      (5 : Int) ≠ (⟨1, [0]⟩ : Ref Int).value ∧
      (Ref.setValue (⟨0, [7]⟩ : Ref Int) 0 = (⟨0, [7]⟩, []) ∧
        Ref.setValue (⟨0, [7]⟩ : Ref Int) 1 = (⟨1, [7]⟩, [(7, 0, 1)]) ∧
        CompSystem.setDep sampleSystem 0 1 = (sampleSystem, []) ∧
        (CompSystem.setDep sampleSystem 0 5).1.computed.value = 5 ∧
        (CompSystem.setDep sampleSystem 0 5).2 = [(9, 2, 5)]) :=
  ⟨by decide, rfl, by decide,
    c8_reactive_value_semantics ⟨0, [7]⟩ 1 (by decide) sampleSystem 0 ⟨1, [0]⟩ rfl 5 (by decide)⟩

/-- A Node `setTimeout` handle as the wrapper uses it: the duration it was
created with, the instant it is currently due to fire, and whether it is
still armed (`clearTimeout` cancels without detaching the handle). -/
structure TimerState where
  duration : Int
  deadline : Int
  live : Bool
deriving DecidableEq, Repr

/-- `timeout.refresh()`: re-arms the timer to fire its full original duration
from now. -/
def TimerState.refresh (t : TimerState) (now : Int) : TimerState :=
  { t with deadline := now + t.duration, live := true }

/-- A `CacheEntry` of src/cache-wrapper.ts: timestamps, the reactive TTL's
current value, and the eviction timer (`null` once it has fired). -/
structure WEntry where
  createdAt : Int
  modifiedAt : Int
  ttlValue : Int
  timeout : Option TimerState
deriving DecidableEq, Repr

/-- The state of an `IndependentStoreCacheWrapper` over a `MemoryStore`: the
wrapper's `entries` map and the store's key-value `entries` map, both as
association lists. -/
structure WrapperState (T : Type) where
  entries : List (String × WEntry)
  store : List (String × T)

/-- Association-list lookup (a `Map.get`). -/
def alookup {T : Type} (l : List (String × T)) (key : String) : Option T :=
  (l.find? (fun p => p.1 = key)).map Prod.snd

namespace IndependentStoreCacheWrapper

/-- `IndependentStoreCacheWrapper.get` (src/cache-wrapper.ts): look up the
entry; if it exists and its timeout is non-null, `entry.timeout.refresh()`;
then resolve to `this.store.read(key)` (a `MemoryStore` read is a map
lookup).  No entry is created, removed, or otherwise changed. -/
def get {T : Type} (s : WrapperState T) (key : String) (now : Int) :
    WrapperState T × Option T :=
  let entries2 := s.entries.map (fun p =>
    if p.1 = key then
      (p.1, { p.2 with timeout := p.2.timeout.map (fun t => t.refresh now) })
    else p)
  ({ s with entries := entries2 }, alookup s.store key)

/-- `IndependentStoreCacheWrapper.clear` (src/cache-wrapper.ts): cancel every
entry's timer with `clearTimeout`, then return `this.store.clear()` —
`MemoryStore.clear` reports the store's size and empties it.  The wrapper's
`entries` map itself is not emptied. -/
def clear {T : Type} (s : WrapperState T) : WrapperState T × Nat :=
  let entries2 := s.entries.map (fun p =>
    (p.1, { p.2 with timeout := p.2.timeout.map (fun t => { t with live := false }) }))
  ({ entries := entries2, store := [] }, s.store.length)

end IndependentStoreCacheWrapper

/-- After one `clear`, every timer held by a surviving entry is cancelled. -/
theorem clear_timers_dead {T : Type} (s : WrapperState T) :
    ∀ p ∈ (IndependentStoreCacheWrapper.clear s).1.entries,
      ∀ t ∈ p.2.timeout, t.live = false := by
  intro p hp t ht
  simp only [IndependentStoreCacheWrapper.clear, List.mem_map] at hp
  obtain ⟨q, _, rfl⟩ := hp
  simp only [Option.mem_def, Option.map_eq_some'] at ht
  obtain ⟨u, _, rfl⟩ := ht
  rfl

/-- C9 (counterexample): starting from a wrapper holding one entry for
`"foo"` with an armed timer and the value in its store, `clear()` followed by
`clear()` returns `0` removed the second time, yet an Entry record is still
present in the wrapper's `entries` map — contradicting the claim that no
Entry records remain. -/
theorem c9_entries_survive_clear :
    (IndependentStoreCacheWrapper.clear
        (IndependentStoreCacheWrapper.clear
          ({ entries := [("foo", ⟨0, 0, 5, some ⟨5, 5, true⟩⟩)],
             store := [("foo", 1)] } : WrapperState Int)).1).2 = 0 ∧
      (IndependentStoreCacheWrapper.clear
        (IndependentStoreCacheWrapper.clear
          ({ entries := [("foo", ⟨0, 0, 5, some ⟨5, 5, true⟩⟩)],
             store := [("foo", 1)] } : WrapperState Int)).1).1.entries ≠ [] := by
  constructor
  · rfl
  · decide

/-- C9 (amended): `clear()` is idempotent on the backing store — an
immediately repeated `clear()` returns `0` entries removed and leaves the
store empty, and every entry's eviction timer is cancelled — but the
wrapper's `entries` map keeps all its Entry records (only their timers are
touched); `IndependentStoreCacheWrapper.clear` never removes entries. -/
theorem c9_clear_idempotent_on_store (T : Type) (s : WrapperState T) :
    (IndependentStoreCacheWrapper.clear (IndependentStoreCacheWrapper.clear s).1).2 = 0 ∧
      (IndependentStoreCacheWrapper.clear
        (IndependentStoreCacheWrapper.clear s).1).1.store = [] ∧
      (IndependentStoreCacheWrapper.clear
        (IndependentStoreCacheWrapper.clear s).1).1.entries.length = s.entries.length ∧
      ∀ p ∈ (IndependentStoreCacheWrapper.clear
        (IndependentStoreCacheWrapper.clear s).1).1.entries,
          ∀ t ∈ p.2.timeout, t.live = false := by
  refine ⟨rfl, rfl, ?_, clear_timers_dead _⟩
  simp [IndependentStoreCacheWrapper.clear]

/-- Looking a key up after updating in place the value stored at that key
finds the updated value. -/
theorem find?_map_update {T : Type} (l : List (String × T)) (key : String) (g : T → T) :
    (l.map (fun p => if p.1 = key then (p.1, g p.2) else p)).find?
        (fun p => p.1 = key)
      = (l.find? (fun p => p.1 = key)).map
          (fun p => if p.1 = key then (p.1, g p.2) else p) := by
  induction l with
  | nil => rfl
  | cons a l ih =>
    by_cases h : a.1 = key
    · simp [List.find?_cons, h]
    · simp [List.find?_cons, h, ih]

/-- Updating in place the value stored at a key does not change the key
list. -/
theorem map_fst_update {T : Type} (l : List (String × T)) (key : String) (g : T → T) :
    (l.map (fun p => if p.1 = key then (p.1, g p.2) else p)).map Prod.fst
      = l.map Prod.fst := by
  induction l with
  | nil => rfl
  | cons a l ih =>
    by_cases h : a.1 = key
    · simp [h, ih]
    · simp [h, ih]

/-- C10: for a key the wrapper tracks with a live timer, `get` re-arms that
key's eviction timer to its full original duration (new deadline
`now + duration`, a sliding expiration) and then resolves to the backing
store's value; it does not touch the store, does not create or remove
entries (the key list is unchanged and every other entry is untouched), and
changes the tracked entry only by refreshing its timer. -/
theorem c10_get_rearms_timer_and_reads_store (T : Type) (s : WrapperState T)
    (key : String) (now : Int) (e : WEntry) (t : TimerState)
    (he : alookup s.entries key = some e) (ht : e.timeout = some t)
    (hlive : t.live = true) :
    (IndependentStoreCacheWrapper.get s key now).2 = alookup s.store key ∧
      (IndependentStoreCacheWrapper.get s key now).1.store = s.store ∧
      alookup (IndependentStoreCacheWrapper.get s key now).1.entries key
        = some { e with timeout := some (t.refresh now) } ∧
      (t.refresh now).deadline = now + t.duration ∧
      (IndependentStoreCacheWrapper.get s key now).1.entries.map Prod.fst
        = s.entries.map Prod.fst ∧
      ∀ p ∈ (IndependentStoreCacheWrapper.get s key now).1.entries,
        p.1 ≠ key → p ∈ s.entries := by
  refine ⟨rfl, rfl, ?_, rfl,
    map_fst_update s.entries key
      (fun x => { x with timeout := x.timeout.map (fun t => t.refresh now) }), ?_⟩
  · obtain ⟨q, hq, hq2⟩ :
        ∃ q, s.entries.find? (fun p => p.1 = key) = some q ∧ q.2 = e := by
      unfold alookup at he
      cases hf : s.entries.find? (fun p => p.1 = key) with
      | none => rw [hf] at he; exact absurd he (by simp)
      | some q =>
        rw [hf] at he
        exact ⟨q, rfl, by simpa using he⟩
    have hkey : q.1 = key := by
      have := List.find?_some hq
      simpa using this
    simp only [IndependentStoreCacheWrapper.get, alookup]
    rw [find?_map_update s.entries key
        (fun x => { x with timeout := x.timeout.map (fun t => t.refresh now) }), hq]
    simp [hkey, hq2, ht]
  · intro p hp hne
    simp only [IndependentStoreCacheWrapper.get, List.mem_map] at hp
    obtain ⟨q, hq, rfl⟩ := hp
    by_cases h : q.1 = key
    · rw [if_pos h] at hne ⊢
      exact absurd h hne
    · rwa [if_neg h]

/-- A wrapper holding the value `3` for `"foo"` with an armed 5ms eviction
timer due at instant 5. -/
def sampleWrapper : WrapperState Int :=
  { entries := [("foo", ⟨0, 0, 5, some ⟨5, 5, true⟩⟩)], store := [("foo", 3)] }

/-- C10 witness. -/
theorem c10_get_rearms_timer_and_reads_store_witness :
    alookup sampleWrapper.entries "foo" = some ⟨0, 0, 5, some ⟨5, 5, true⟩⟩ ∧
      (⟨0, 0, 5, some ⟨5, 5, true⟩⟩ : WEntry).timeout = some ⟨5, 5, true⟩ ∧
      (⟨5, 5, true⟩ : TimerState).live = true ∧
      ((IndependentStoreCacheWrapper.get sampleWrapper "foo" 100).2
          = alookup sampleWrapper.store "foo" ∧
        (IndependentStoreCacheWrapper.get sampleWrapper "foo" 100).1.store
          = sampleWrapper.store ∧
        alookup (IndependentStoreCacheWrapper.get sampleWrapper "foo" 100).1.entries "foo"
          = some ⟨0, 0, 5, some ⟨5, 105, true⟩⟩ ∧
        (TimerState.refresh ⟨5, 5, true⟩ 100).deadline = 100 + 5 ∧
        (IndependentStoreCacheWrapper.get sampleWrapper "foo" 100).1.entries.map Prod.fst
          = sampleWrapper.entries.map Prod.fst ∧
        ∀ p ∈ (IndependentStoreCacheWrapper.get sampleWrapper "foo" 100).1.entries,
          p.1 ≠ "foo" → p ∈ sampleWrapper.entries) :=
  ⟨rfl, rfl, rfl,
    c10_get_rearms_timer_and_reads_store Int sampleWrapper "foo" 100
      ⟨0, 0, 5, some ⟨5, 5, true⟩⟩ ⟨5, 5, true⟩ rfl rfl rfl⟩

end NopeCache
